import Mathlib

/-!
Shallow embedding of the CHIP-8 interpreter in `src/main.rs`.

Machine integers are modelled as `Nat` with explicit `% 256` where the Rust
code wraps (release semantics of `u8` arithmetic; two's-complement wraparound
for `-`).  Fixed-size Rust arrays (`[u8; 4096]`, `[u16; 16]`, `[[bool; 64]; 32]`)
are modelled as total functions; every indexed access whose index is not a
nibble (memory, stack, pixels) goes through the same bounds check the Rust
runtime performs, and an out-of-range index becomes an explicit fault, like a
Rust panic.
-/

namespace Chip8

/-- The ways the interpreter aborts: the two explicit `panic!` calls in
`call`/`ret`, the implicit Rust index-out-of-bounds panic, and the `todo!`
reached by an unrecognised opcode. -/
inductive Fault where
  | stackOverflowPanic
  | stackUnderflowPanic
  | indexOutOfBounds
  | todoUnimplemented
deriving DecidableEq

/-- `struct Display { pixels: [[bool; 64]; 32] }`; `pixels y x` is the Rust
`pixels[y][x]`. -/
structure Display where
  pixels : Nat → Nat → Bool

/-- `Display::clear` — the body of the Rust method is entirely commented out
(src/main.rs lines 274-278), so it leaves the grid unchanged. -/
def Display.clear (d : Display) : Display := d

/-- `struct CPU` from src/main.rs lines 14-23. -/
structure CPU where
  registers : Nat → Nat
  register_I : Nat
  position_in_memory : Nat
  memory : Nat → Nat
  stack : Nat → Nat
  stack_pointer : Nat
  display : Display

/-- Point update of a register/stack/memory array. -/
def setReg (f : Nat → Nat) (i v : Nat) : Nat → Nat :=
  fun j => if j = i then v else f j

/-- Point update of the pixel grid. -/
def setPix (f : Nat → Nat → Bool) (y x : Nat) (b : Bool) : Nat → Nat → Bool :=
  fun y' x' => if y' = y ∧ x' = x then b else f y' x'

/-- `CPU::read_opcode`: big-endian fetch of two bytes; both `memory[p]` and
`memory[p+1]` must be in `[0, 4096)` or Rust panics on the index. -/
def read_opcode (s : CPU) : Except Fault Nat :=
  if s.position_in_memory + 1 < 4096 then
    .ok ((s.memory s.position_in_memory) <<< 8 ||| s.memory (s.position_in_memory + 1))
  else .error .indexOutOfBounds

/-- `CPU::call`: the source guard is `sp > stack.len()` (i.e. `sp > 16`), and
only then writes `stack[sp]`, which itself requires `sp < 16`. -/
def call (addr : Nat) (s : CPU) : Except Fault CPU :=
  if 16 < s.stack_pointer then .error .stackOverflowPanic
  else if s.stack_pointer < 16 then
    .ok { s with stack := setReg s.stack s.stack_pointer s.position_in_memory,
                 stack_pointer := s.stack_pointer + 1,
                 position_in_memory := addr }
  else .error .indexOutOfBounds

/-- `CPU::ret`: underflow guard, then reads `stack[sp - 1]`. -/
def ret (s : CPU) : Except Fault CPU :=
  if s.stack_pointer = 0 then .error .stackUnderflowPanic
  else if s.stack_pointer - 1 < 16 then
    .ok { s with stack_pointer := s.stack_pointer - 1,
                 position_in_memory := s.stack (s.stack_pointer - 1) }
  else .error .indexOutOfBounds

/-- `CPU::jmp_to_addr`. -/
def jmp_to_addr (addr : Nat) (s : CPU) : CPU :=
  { s with position_in_memory := addr }

/-- `CPU::skip_if_eq`. -/
def skip_if_eq (x kk : Nat) (s : CPU) : CPU :=
  if s.registers x = kk then { s with position_in_memory := s.position_in_memory + 2 } else s

/-- `CPU::skip_if_neq`. -/
def skip_if_neq (r kk : Nat) (s : CPU) : CPU :=
  if s.registers r ≠ kk then { s with position_in_memory := s.position_in_memory + 2 } else s

/-- `CPU::skip_if_eq_registers`. -/
def skip_if_eq_registers (x y : Nat) (s : CPU) : CPU :=
  if s.registers x = s.registers y then
    { s with position_in_memory := s.position_in_memory + 2 } else s

/-- `CPU::load_in_register`. -/
def load_in_register (x kk : Nat) (s : CPU) : CPU :=
  { s with registers := setReg s.registers x kk }

/-- `CPU::add_xkk`: `registers[x] = arg1 + kk`; the `u8` addition wraps
(release semantics), modelled as `% 256`. -/
def add_xkk (x kk : Nat) (s : CPU) : CPU :=
  { s with registers := setReg s.registers x ((s.registers x + kk) % 256) }

/-- `CPU::set_xy`. -/
def set_xy (x y : Nat) (s : CPU) : CPU :=
  { s with registers := setReg s.registers x (s.registers y) }

/-- `CPU::or_xy`. -/
def or_xy (x y : Nat) (s : CPU) : CPU :=
  { s with registers := setReg s.registers x (s.registers x ||| s.registers y) }

/-- `CPU::and_xy`. -/
def and_xy (x y : Nat) (s : CPU) : CPU :=
  { s with registers := setReg s.registers x (s.registers x &&& s.registers y) }

/-- `CPU::xor_xy`. -/
def xor_xy (x y : Nat) (s : CPU) : CPU :=
  { s with registers := setReg s.registers x (s.registers x ^^^ s.registers y) }

/-- `CPU::add_xy`: `overflowing_add`, then `registers[0xF]` set from the
overflow bit. -/
def add_xy (x y : Nat) (s : CPU) : CPU :=
  let arg1 := s.registers x
  let arg2 := s.registers y
  let regs := setReg s.registers x ((arg1 + arg2) % 256)
  { s with registers := setReg regs 15 (if 255 < arg1 + arg2 then 1 else 0) }

/-- `CPU::sub_xy`: `arg1 - arg2` wraps two's-complement (release semantics),
modelled as `(arg1 + 256 - arg2) % 256` for byte-valued registers; the flag
guard in the source is the strict `arg1 > arg2`. -/
def sub_xy (x y : Nat) (s : CPU) : CPU :=
  let arg1 := s.registers x
  let arg2 := s.registers y
  let regs := setReg s.registers x ((arg1 + 256 - arg2) % 256)
  { s with registers := setReg regs 15 (if arg2 < arg1 then 1 else 0) }

/-- `CPU::shr_x`: shifts `registers[x]` right first, then writes
`registers[0xF] = val_x & 1` from the saved pre-shift value. -/
def shr_x (x : Nat) (s : CPU) : CPU :=
  let val_x := s.registers x
  let regs := setReg s.registers x (val_x >>> 1)
  { s with registers := setReg regs 15 (val_x &&& 1) }

/-- `CPU::subn_xy`: `arg2 - arg1` with wraparound; flag guard `arg2 > arg1`. -/
def subn_xy (x y : Nat) (s : CPU) : CPU :=
  let arg1 := s.registers x
  let arg2 := s.registers y
  let regs := setReg s.registers x ((arg2 + 256 - arg1) % 256)
  { s with registers := setReg regs 15 (if arg1 < arg2 then 1 else 0) }

/-- `CPU::shl_x`: shifts `registers[x]` left first (u8 `<<` drops the high
bit, modelled `% 256`), then writes `registers[0xF] = val_x >> 7`. -/
def shl_x (x : Nat) (s : CPU) : CPU :=
  let val_x := s.registers x
  let regs := setReg s.registers x ((val_x <<< 1) % 256)
  { s with registers := setReg regs 15 (val_x >>> 7) }

/-- `CPU::skip_if_neq_registers`. -/
def skip_if_neq_registers (x y : Nat) (s : CPU) : CPU :=
  if s.registers x ≠ s.registers y then
    { s with position_in_memory := s.position_in_memory + 2 } else s

/-- `CPU::set_I`. -/
def set_I (addr : Nat) (s : CPU) : CPU :=
  { s with register_I := addr }

/-- `CPU::jmp_to_addr_x`. -/
def jmp_to_addr_x (x addr : Nat) (s : CPU) : CPU :=
  { s with position_in_memory := addr + s.registers x }

/-- `CPU::set_rand_x`: the source computes `1 & kk` — a constant mask of the
literal, not a random byte. -/
def set_rand_x (x kk : Nat) (s : CPU) : CPU :=
  { s with registers := setReg s.registers x (1 &&& kk) }

/-- One cell of `CPU::draw`'s inner loop: sprite bit `j` of `sprite` XOR-blitted
onto `pixels[sy+i][sx+j]`.  The Rust code reads `pixels[y][x]` inside the branch
conditions, so any out-of-range cell panics before the branch runs; the cell
update follows the source's three branches literally. -/
def drawCell (sx sy sprite i j : Nat) (s : CPU) : Except Fault CPU :=
  let y := sy + i
  let x := sx + j
  if y < 32 ∧ x < 64 then
    let p := sprite &&& (1 <<< (7 - j))
    if 0 < p ∧ s.display.pixels y x = true then
      .ok { s with display := ⟨setPix s.display.pixels y x false⟩,
                   registers := setReg s.registers 15 1 }
    else if (p = 0 ∧ s.display.pixels y x = true) ∨ (0 < p ∧ s.display.pixels y x = false) then
      .ok { s with display := ⟨setPix s.display.pixels y x true⟩ }
    else .ok s
  else .error .indexOutOfBounds

/-- The `for j in 0..8` loop of `CPU::draw`, processing `k` remaining columns
starting at column `j`. -/
def drawCols (sx sy sprite i : Nat) : Nat → Nat → CPU → Except Fault CPU
  | 0, _, s => .ok s
  | k + 1, j, s =>
    match drawCell sx sy sprite i j s with
    | .error f => .error f
    | .ok s' => drawCols sx sy sprite i k (j + 1) s'

/-- The `for i in 0..n` loop of `CPU::draw`, processing `k` remaining rows
starting at row `i`; each row reads its sprite byte `memory[register_I + i]`
(bounds-checked, as in Rust). -/
def drawRows (sx sy : Nat) : Nat → Nat → CPU → Except Fault CPU
  | 0, _, s => .ok s
  | k + 1, i, s =>
    if s.register_I + i < 4096 then
      match drawCols sx sy (s.memory (s.register_I + i)) i 8 0 s with
      | .error f => .error f
      | .ok s' => drawRows sx sy k (i + 1) s'
    else .error .indexOutOfBounds

/-- `CPU::draw`: start column/row from the operand registers (mod 64 / mod 32),
`registers[0xF]` reset to 0, then the row loop. -/
def draw (ix iy n : Nat) (s : CPU) : Except Fault CPU :=
  let start_x := s.registers ix % 64
  let start_y := s.registers iy % 32
  drawRows start_x start_y n 0 { s with registers := setReg s.registers 15 0 }

/-- Result of executing a single instruction: keep running, the `(0,0,0,0)`
halt return, or a panic. -/
inductive Outcome where
  | running (s : CPU)
  | halted (s : CPU)
  | faulted (f : Fault)

/-- Lift a fallible handler into an `Outcome`. -/
def liftOp : Except Fault CPU → Outcome
  | .ok s => .running s
  | .error f => .faulted f

/-- One iteration of the body of `CPU::run`: fetch, advance the program counter
by 2, decode the nibbles, dispatch on `(c, x, y, d)` exactly as the Rust
`match`, with the final wildcard arm being the `todo!` panic. -/
def step (s0 : CPU) : Outcome :=
  match read_opcode s0 with
  | .error f => .faulted f
  | .ok opcode =>
    let s := { s0 with position_in_memory := s0.position_in_memory + 2 }
    let c := (opcode >>> 12) &&& 15
    let x := (opcode >>> 8) &&& 15
    let y := (opcode >>> 4) &&& 15
    let d := opcode &&& 15
    let nnn := opcode &&& 4095
    let kk := opcode &&& 255
    match c, x, y, d with
    | 0, 0, 0, 0 => .halted s
    | 0, 0, 14, 0 => .running { s with display := s.display.clear }
    | 0, 0, 14, 14 => liftOp (ret s)
    | 1, _, _, _ => .running (jmp_to_addr nnn s)
    | 2, _, _, _ => liftOp (call nnn s)
    | 3, _, _, _ => .running (skip_if_eq x kk s)
    | 4, _, _, _ => .running (skip_if_neq x kk s)
    | 5, _, _, 0 => .running (skip_if_eq_registers x y s)
    | 6, _, _, _ => .running (load_in_register x kk s)
    | 7, _, _, _ => .running (add_xkk x kk s)
    | 8, _, _, 0 => .running (set_xy x y s)
    | 8, _, _, 1 => .running (or_xy x y s)
    | 8, _, _, 2 => .running (and_xy x y s)
    | 8, _, _, 3 => .running (xor_xy x y s)
    | 8, _, _, 4 => .running (add_xy x y s)
    | 8, _, _, 5 => .running (sub_xy x y s)
    | 8, _, _, 6 => .running (shr_x x s)
    | 8, _, _, 7 => .running (subn_xy x y s)
    | 8, _, _, 14 => .running (shl_x x s)
    | 9, _, _, 0 => .running (skip_if_neq_registers x y s)
    | 10, _, _, _ => .running (set_I nnn s)
    | 11, _, _, _ => .running (jmp_to_addr_x x nnn s)
    | 12, _, _, _ => .running (set_rand_x x kk s)
    | 13, _, _, _ => liftOp (draw x y d s)
    | _, _, _, _ => .faulted .todoUnimplemented

/-- How `CPU::run` ends: the halt opcode, a panic, or the loop's iteration
cap (`i > 100` breaks the loop after 100 executed instructions). -/
inductive RunOutcome where
  | halted (s : CPU)
  | faulted (f : Fault)
  | capped (s : CPU)

/-- The loop of `CPU::run` with `fuel` iterations remaining.  The source counts
`i` upward from 0 and breaks once `i > 100`, i.e. it executes at most 100
instructions; `fuel = 100 - i` at loop entry. -/
def runLoop : Nat → CPU → RunOutcome
  | 0, s => .capped s
  | fuel + 1, s =>
    match step s with
    | .running s' => runLoop fuel s'
    | .halted s' => .halted s'
    | .faulted f => .faulted f

/-- `CPU::run`. -/
def run (s : CPU) : RunOutcome := runLoop 100 s

/-- Iterate `step` while the machine keeps running (used to talk about a bounded
prefix of an execution). -/
def stepN : Nat → CPU → Outcome
  | 0, s => .running s
  | n + 1, s =>
    match step s with
    | .running s' => stepN n s'
    | o => o

/-- The machine `main` constructs: `pc = 512`, zeroed registers/stack, cleared
display, with the given memory image. -/
def initCPU (mem : Nat → Nat) : CPU :=
  { registers := fun _ => 0
    register_I := 0
    position_in_memory := 512
    memory := mem
    stack := fun _ => 0
    stack_pointer := 0
    display := ⟨fun _ _ => false⟩ }

/-- Bit `j` (most-significant first) of a sprite byte, as read by `CPU::draw`:
`sprite & (1 << (7 - j)) > 0`. -/
def spriteBit (sprite j : Nat) : Bool := decide (0 < sprite &&& (1 <<< (7 - j)))

/-- Whether any of the `k` sprite columns starting at column `j` has its bit set
over an already-lit pixel of row `y` (the collision condition of one draw row). -/
def anyCollide (pix : Nat → Nat → Bool) (sx y sprite : Nat) : Nat → Nat → Bool
  | 0, _ => false
  | k + 1, j => (spriteBit sprite j && pix y (sx + j)) || anyCollide pix sx y sprite k (j + 1)

/-- Whether any of the `k` sprite rows starting at row `i` collides. -/
def anyCollideRows (pix : Nat → Nat → Bool) (m : Nat → Nat) (sx sy ri : Nat) : Nat → Nat → Bool
  | 0, _ => false
  | k + 1, i =>
    anyCollide pix sx (sy + i) (m (ri + i)) 8 0 || anyCollideRows pix m sx sy ri k (i + 1)

/-- The XOR-blit of one sprite row restricted to columns `[j, j + k)`:
the per-pixel effect of `drawCols`. -/
def blitRow (pix : Nat → Nat → Bool) (sx y sprite j k : Nat) : Nat → Nat → Bool :=
  fun y' x' =>
    if y' = y ∧ sx + j ≤ x' ∧ x' < sx + j + k then
      Bool.xor (pix y' x') (spriteBit sprite (x' - sx))
    else pix y' x'

/-- The XOR-blit of sprite rows `[i, i + k)`: the per-pixel effect of
`drawRows`. -/
def blitRows (pix : Nat → Nat → Bool) (m : Nat → Nat) (sx sy ri i k : Nat) : Nat → Nat → Bool :=
  fun y' x' =>
    if sy + i ≤ y' ∧ y' < sy + i + k ∧ sx ≤ x' ∧ x' < sx + 8 then
      Bool.xor (pix y' x') (spriteBit (m (ri + (y' - sy))) (x' - sx))
    else pix y' x'

/-- All-zero memory image. -/
def zeroMem : Nat → Nat := fun _ => 0

/-- Memory whose program is the single opcode `0x1200` at address 512: an
unconditional jump to itself, so the machine never halts and never faults. -/
def jumpLoopMem : Nat → Nat := fun a => if a = 512 then 18 else 0

/-- Machine loaded with the self-jump program. -/
def jumpLoopCPU : CPU := initCPU jumpLoopMem

/-- Memory whose program is the single opcode `0x2200` at address 512: a call
to itself, producing unboundedly nested calls with no returns. -/
def nestedCallMem : Nat → Nat := fun a => if a = 512 then 34 else 0

/-- Machine loaded with the self-call program. -/
def nestedCallCPU : CPU := initCPU nestedCallMem

/-- Observation of a still-running machine: stack pointer, program counter,
bottom and top pushed stack slots. -/
def outcomeView : Outcome → Option (Nat × Nat × Nat × Nat)
  | .running s => some (s.stack_pointer, s.position_in_memory, s.stack 0, s.stack 15)
  | _ => none

/-- Memory whose program is the single opcode `0x00E0` (clear screen) at 512. -/
def clearTestMem : Nat → Nat := fun a => if a = 513 then 224 else 0

/-- Machine about to execute clear-screen, with pixel (0, 0) lit. -/
def clearTestCPU : CPU :=
  { initCPU clearTestMem with display := ⟨fun y x => y == 0 && x == 0⟩ }

/-- Machine with register 0 = 100. -/
def addTestCPU : CPU := { initCPU zeroMem with registers := setReg (fun _ => 0) 0 100 }

/-- Machine with registers 0 and 1 both 5. -/
def subTestCPU : CPU :=
  { initCPU zeroMem with registers := setReg (setReg (fun _ => 0) 0 5) 1 5 }

/-- Machine with register 0 = 7 and register 1 = 3. -/
def subWitCPU : CPU :=
  { initCPU zeroMem with registers := setReg (setReg (fun _ => 0) 0 7) 1 3 }

/-- Machine with register 0xF = 2 and register 0 = 3. -/
def addFlagCPU : CPU :=
  { initCPU zeroMem with registers := setReg (setReg (fun _ => 0) 15 2) 0 3 }

/-- Machine with register 0 = 200 and register 1 = 100. -/
def addWitCPU : CPU :=
  { initCPU zeroMem with registers := setReg (setReg (fun _ => 0) 0 200) 1 100 }

/-- Machine with register 0xF = 2. -/
def shiftCPU2 : CPU := { initCPU zeroMem with registers := setReg (fun _ => 0) 15 2 }

/-- Machine with register 0xF = 3. -/
def shiftCPU3 : CPU := { initCPU zeroMem with registers := setReg (fun _ => 0) 15 3 }

/-- Machine with register 0 = 5. -/
def shiftWitCPU : CPU := { initCPU zeroMem with registers := setReg (fun _ => 0) 0 5 }

/-- Machine with zeroed state. -/
def randTestCPU : CPU := initCPU zeroMem

/-- Memory holding the one-byte sprite `0x80` at address 0. -/
def drawTestMem : Nat → Nat := fun a => if a = 0 then 128 else 0

/-- Machine whose index register points at the sprite `0x80` and whose operand
registers give start position (0, 0). -/
def drawTestCPU : CPU := initCPU drawTestMem

/-- The machine after one `draw 0 1 1` on `drawTestCPU` (total by construction:
that draw succeeds). -/
def drawOnceCPU : CPU :=
  match draw 0 1 1 drawTestCPU with
  | .ok t => t
  | .error _ => drawTestCPU

set_option maxRecDepth 40000

theorem setReg_self (f : Nat → Nat) (i v : Nat) : setReg f i v i = v := by
  simp [setReg]

theorem setReg_ne (f : Nat → Nat) (i v j : Nat) (h : j ≠ i) : setReg f i v j = f j := by
  simp [setReg, h]

theorem setReg_setReg (f : Nat → Nat) (i v w : Nat) :
    setReg (setReg f i w) i v = setReg f i v := by
  funext j
  by_cases h : j = i <;> simp [setReg, h]

/-- C1: the claim says `run` terminates only at the halt opcode or a fault, but
the source breaks its loop unconditionally once the iteration counter passes
100: on the self-jump program `0x1200` the machine is still runnable (the next
step is an ordinary running step, no fault), yet `run` returns after 100
instructions with the machine mid-program. -/
theorem run_hits_instruction_cap :
    run jumpLoopCPU = RunOutcome.capped jumpLoopCPU ∧
    step jumpLoopCPU = Outcome.running jumpLoopCPU := ⟨rfl, rfl⟩

/-- C2: the body of `Display::clear` is commented out, so executing the
clear-screen opcode `0x00E0` leaves every pixel as it was: the machine steps
normally (only the program counter advances) and the lit pixel (0, 0) still
reads `true` afterwards, contradicting the claim that every pixel reads false. -/
theorem clear_screen_is_noop :
    step clearTestCPU = Outcome.running { clearTestCPU with position_in_memory := 514 } ∧
    clearTestCPU.display.pixels 0 0 = true := ⟨rfl, rfl⟩

/-- C3 counterexample: with register 0 = register 1 = 5, the claim requires the
flag register to be 1 (since 5 ≥ 5), but `sub_xy`'s guard is the strict
`arg1 > arg2`, so the code leaves the flag 0. -/
theorem sub_borrow_counterexample :
    ¬ ((sub_xy 0 1 subTestCPU).registers 0 = 0 ∧
       (sub_xy 0 1 subTestCPU).registers 15 = 1) := by decide

/-- C3 amended: subtract-with-borrow stores `(a − b) mod 256` in register x and
sets register 0xF to 1 iff `a > b` (strictly — no borrow and not equal); the
flag write comes after the store, so the stated register-x value needs
`x ≠ 0xF`. -/
theorem sub_with_borrow_wraps_strict_flag (x y a b : Nat) (s : CPU)
    (hxy : x ≠ y) (hx15 : x ≠ 15) (ha : s.registers x = a) (hb : s.registers y = b)
    (ha2 : a < 256) (hb2 : b < 256) :
    ((sub_xy x y s).registers x : Int) = ((a : Int) - b) % 256 ∧
    ((sub_xy x y s).registers 15 = 1 ↔ b < a) := by
  have e1 : (sub_xy x y s).registers x = (a + 256 - b) % 256 := by
    simp [sub_xy, setReg, hx15, ha, hb]
  have e2 : (sub_xy x y s).registers 15 = (if b < a then 1 else 0) := by
    simp [sub_xy, setReg, ha, hb]
  constructor
  · rw [e1]
    have hb3 : b ≤ a + 256 := by omega
    push_cast [Nat.cast_sub hb3]
    omega
  · rw [e2]
    by_cases h : b < a <;> simp [h]

/-- C3 witness: registers 7 and 3 give 4 with flag 1. -/
theorem sub_with_borrow_witness :
    ((sub_xy 0 1 subWitCPU).registers 0 : Int) = ((7 : Int) - 3) % 256 ∧
    ((sub_xy 0 1 subWitCPU).registers 15 = 1 ↔ 3 < 7) :=
  sub_with_borrow_wraps_strict_flag 0 1 7 3 subWitCPU (by decide) (by decide) rfl rfl
    (by decide) (by decide)

/-- C4: the claim's first 16 nested calls do succeed (stack pointer 16, each
call pushed the return address 514 and reset the program counter to the call
target 512), but the 17th call does not raise the `Stack overflow` panic: the
source guard is `sp > stack.len()` instead of `sp >= stack.len()`, so with
`sp = 16` the guard passes and the write `stack[16]` panics with an
index-out-of-bounds instead. -/
theorem seventeenth_call_faults_index_out_of_bounds :
    outcomeView (stepN 16 nestedCallCPU) = some (16, 512, 514, 514) ∧
    stepN 17 nestedCallCPU = Outcome.faulted Fault.indexOutOfBounds ∧
    Fault.indexOutOfBounds ≠ Fault.stackOverflowPanic :=
  ⟨rfl, rfl, by decide⟩

/-- C5: add-immediate stores `(a + kk) mod 256` in register x (u8 wraparound)
and, for `x ≠ 0xF`, leaves register 0xF untouched — `add_xkk` writes no flag. -/
theorem add_immediate_wraps_no_flag (x kk a : Nat) (s : CPU)
    (hx : x ≠ 15) (ha : s.registers x = a) :
    (add_xkk x kk s).registers x = (a + kk) % 256 ∧
    (add_xkk x kk s).registers 15 = s.registers 15 := by
  constructor
  · simp [add_xkk, setReg, ha]
  · simp [add_xkk, setReg, Ne.symm hx]

/-- C5 witness: 100 + 200 wraps to 44 and the flag register stays 0. -/
theorem add_immediate_witness :
    (add_xkk 0 200 addTestCPU).registers 0 = (100 + 200) % 256 ∧
    (add_xkk 0 200 addTestCPU).registers 15 = addTestCPU.registers 15 :=
  add_immediate_wraps_no_flag 0 200 100 addTestCPU (by decide) rfl

/-- C7 counterexample: with x = 0xF (and y = 0, registers 0xF = 2, 0 = 3,
x ≠ y), the claim requires register x to end holding `(2 + 3) mod 256 = 5`,
but the flag write follows the sum write, so register 0xF ends 0. -/
theorem add_carry_counterexample :
    ¬ ((add_xy 15 0 addFlagCPU).registers 15 = (2 + 3) % 256) := by decide

/-- C7 amended: add-with-carry stores `(a + b) mod 256` in register x and sets
register 0xF to 1 iff `a + b > 255`, provided `x ≠ 0xF`; the flag write is
last, so for x = 0xF the carry flag is what remains in the register. -/
theorem add_with_carry_wraps_flag (x y a b : Nat) (s : CPU)
    (hxy : x ≠ y) (hx15 : x ≠ 15) (ha : s.registers x = a) (hb : s.registers y = b) :
    (add_xy x y s).registers x = (a + b) % 256 ∧
    (add_xy x y s).registers 15 = (if 255 < a + b then 1 else 0) ∧
    ((add_xy x y s).registers 15 = 1 ↔ 255 < a + b) := by
  have e1 : (add_xy x y s).registers x = (a + b) % 256 := by
    simp [add_xy, setReg, hx15, ha, hb]
  have e2 : (add_xy x y s).registers 15 = (if 255 < a + b then 1 else 0) := by
    simp [add_xy, setReg, ha, hb]
  refine ⟨e1, e2, ?_⟩
  rw [e2]
  by_cases h : 255 < a + b <;> simp [h]

/-- C7 witness: 200 + 100 wraps to 44 with carry flag 1. -/
theorem add_with_carry_witness :
    (add_xy 0 1 addWitCPU).registers 0 = (200 + 100) % 256 ∧
    (add_xy 0 1 addWitCPU).registers 15 = (if 255 < 200 + 100 then 1 else 0) ∧
    ((add_xy 0 1 addWitCPU).registers 15 = 1 ↔ 255 < 200 + 100) :=
  add_with_carry_wraps_flag 0 1 200 100 addWitCPU (by decide) (by decide) rfl rfl

/-- C8 counterexample: for x = 0xF the two shift effects land in the same
register and the claim fails on the code: with register 0xF = 2, the shifted
value would be `2 >> 1 = 1` but the code's final register 0xF is the pre-shift
low bit 0; and with register 0xF = 3, reading the claim as flag-write-first
would end with `(3 & 1) >> 1 = 0`, but the code ends with 1. -/
theorem shift_flag_counterexample :
    ¬ ((shr_x 15 shiftCPU2).registers 15 = 2 / 2) ∧
    ¬ ((shr_x 15 shiftCPU3).registers 15 = (3 % 2) / 2) := by decide

/-- C8 amended: for `x ≠ 0xF`, shift-right stores `a >> 1` in register x and
the pre-shift low bit in register 0xF, and shift-left stores `(a << 1) mod 256`
in register x and the pre-shift high bit in register 0xF; the flag write
follows the shift, so for x = 0xF register 0xF ends as the captured pre-shift
bit, not the shifted value. -/
theorem shift_captures_preshift_bit (x a : Nat) (s : CPU)
    (hx15 : x ≠ 15) (ha : s.registers x = a) :
    ((shr_x x s).registers x = a / 2 ∧ (shr_x x s).registers 15 = a % 2) ∧
    ((shl_x x s).registers x = (a * 2) % 256 ∧ (shl_x x s).registers 15 = a / 128) ∧
    (shr_x 15 s).registers 15 = s.registers 15 % 2 ∧
    (shl_x 15 s).registers 15 = s.registers 15 / 128 := by
  have hs1 : ∀ n : Nat, n >>> 1 = n / 2 := fun n => by
    simp [Nat.shiftRight_eq_div_pow]
  have hs7 : ∀ n : Nat, n >>> 7 = n / 128 := fun n => by
    simp [Nat.shiftRight_eq_div_pow]
  have hl1 : ∀ n : Nat, n <<< 1 = n * 2 := fun n => by
    simp [Nat.shiftLeft_eq]
  have hm1 : ∀ n : Nat, n &&& 1 = n % 2 := fun n => Nat.and_one_is_mod n
  refine ⟨⟨?_, ?_⟩, ⟨?_, ?_⟩, ?_, ?_⟩
  · simp [shr_x, setReg, hx15, ha, hs1]
  · simp [shr_x, setReg, ha, hm1]
  · simp [shl_x, setReg, hx15, ha, hl1]
  · simp [shl_x, setReg, ha, hs7]
  · simp [shr_x, setReg, hm1]
  · simp [shl_x, setReg, hs7]

/-- C8 witness: register 0 = 5 shifts to 2 with low bit 1, and to 10 with high
bit 0. -/
theorem shift_captures_preshift_bit_witness :
    ((shr_x 0 shiftWitCPU).registers 0 = 5 / 2 ∧
     (shr_x 0 shiftWitCPU).registers 15 = 5 % 2) ∧
    ((shl_x 0 shiftWitCPU).registers 0 = (5 * 2) % 256 ∧
     (shl_x 0 shiftWitCPU).registers 15 = 5 / 128) ∧
    (shr_x 15 shiftWitCPU).registers 15 = shiftWitCPU.registers 15 % 2 ∧
    (shl_x 15 shiftWitCPU).registers 15 = shiftWitCPU.registers 15 / 128 :=
  shift_captures_preshift_bit 0 5 shiftWitCPU (by decide) rfl

/-- C9: the random opcode's handler computes the constant `1 & kk` — it stores
the low bit of the mask, never a random byte: with mask `kk = 2` the only
"compatible" nonzero byte 2 can never be produced (the result is always 0),
and with mask 0xFF the result is always 1. -/
theorem set_rand_constant_mask :
    (∀ (x kk : Nat) (s : CPU), (set_rand_x x kk s).registers x = 1 &&& kk) ∧
    (set_rand_x 0 2 randTestCPU).registers 0 = 0 ∧
    (set_rand_x 0 255 randTestCPU).registers 0 = 1 :=
  ⟨fun x kk s => by simp [set_rand_x, setReg], by decide, by decide⟩

/-- C10: the interpreter is deterministic — equal initial machine states give
equal `run` results, and the random opcode consumes no entropy: its result is
the constant `1 & kk`, identical on every execution with the same operand. -/
theorem interpreter_deterministic (s t : CPU) (h : s = t) :
    run s = run t ∧
    ∀ x kk, (set_rand_x x kk s).registers x = (set_rand_x x kk t).registers x ∧
            (set_rand_x x kk s).registers x = 1 &&& kk := by
  subst h
  exact ⟨rfl, fun x kk => ⟨rfl, by simp [set_rand_x, setReg]⟩⟩

/-- C10 witness: instantiated at a concrete machine. -/
theorem interpreter_deterministic_witness :
    run randTestCPU = run randTestCPU ∧
    ∀ x kk, (set_rand_x x kk randTestCPU).registers x =
              (set_rand_x x kk randTestCPU).registers x ∧
            (set_rand_x x kk randTestCPU).registers x = 1 &&& kk :=
  interpreter_deterministic randTestCPU randTestCPU rfl


theorem setPix_at (f : Nat → Nat → Bool) (y x : Nat) (b : Bool) : setPix f y x b y x = b := by
  simp [setPix]

theorem setPix_ne (f : Nat → Nat → Bool) (y x : Nat) (b : Bool) (y' x' : Nat)
    (h : ¬ (y' = y ∧ x' = x)) : setPix f y x b y' x' = f y' x' := by
  simp only [setPix, if_neg h]

theorem setPix_self (f : Nat → Nat → Bool) (y x : Nat) (b : Bool) (h : f y x = b) :
    setPix f y x b = f := by
  funext y' x'
  by_cases hc : y' = y ∧ x' = x
  · obtain ⟨h1, h2⟩ := hc
    subst h1; subst h2
    simp [setPix, h]
  · simp only [setPix, if_neg hc]

theorem drawCell_ok (sx sy sprite i j : Nat) (s : CPU) (hy : sy + i < 32) (hx : sx + j < 64) :
    drawCell sx sy sprite i j s = .ok
      { s with
        display := ⟨setPix s.display.pixels (sy + i) (sx + j)
          (Bool.xor (s.display.pixels (sy + i) (sx + j)) (spriteBit sprite j))⟩,
        registers := if spriteBit sprite j && s.display.pixels (sy + i) (sx + j)
          then setReg s.registers 15 1 else s.registers } := by
  rcases Nat.eq_zero_or_pos (sprite &&& (1 <<< (7 - j))) with hp | hp
  · have hb : spriteBit sprite j = false := by simp [spriteBit, hp]
    cases hpix : s.display.pixels (sy + i) (sx + j)
    · have hL : drawCell sx sy sprite i j s = .ok s := by
        simp [drawCell, hy, hx, hp, hpix]
      rw [hL, hb]
      rw [setPix_self _ _ _ _ (by simp [hpix])]
      simp [hpix]
    · have hL : drawCell sx sy sprite i j s = .ok
          { s with display := ⟨setPix s.display.pixels (sy + i) (sx + j) true⟩ } := by
        simp [drawCell, hy, hx, hp, hpix]
      rw [hL, hb]
      simp [hpix]
  · have hb : spriteBit sprite j = true := by simp [spriteBit, hp]
    cases hpix : s.display.pixels (sy + i) (sx + j)
    · have hL : drawCell sx sy sprite i j s = .ok
          { s with display := ⟨setPix s.display.pixels (sy + i) (sx + j) true⟩ } := by
        simp [drawCell, hy, hx, hp, hpix, Nat.pos_iff_ne_zero]
      rw [hL, hb]
      simp [hpix]
    · have hL : drawCell sx sy sprite i j s = .ok
          { s with display := ⟨setPix s.display.pixels (sy + i) (sx + j) false⟩,
                   registers := setReg s.registers 15 1 } := by
        simp [drawCell, hy, hx, hp, hpix]
      rw [hL, hb]
      simp [hpix]


theorem blitRow_zero (pix : Nat → Nat → Bool) (sx y sprite j : Nat) :
    blitRow pix sx y sprite j 0 = pix := by
  funext y' x'
  simp only [blitRow]
  rw [if_neg]
  rintro ⟨h1, h2, h3⟩
  omega

theorem blitRow_cons (pix : Nat → Nat → Bool) (sx y sprite j k : Nat) :
    blitRow pix sx y sprite j (k + 1) =
      blitRow (setPix pix y (sx + j) (Bool.xor (pix y (sx + j)) (spriteBit sprite j)))
        sx y sprite (j + 1) k := by
  funext y' x'
  simp only [blitRow]
  by_cases hyy : y' = y
  · subst hyy
    by_cases hx1 : x' = sx + j
    · subst hx1
      rw [if_pos ⟨rfl, by omega, by omega⟩]
      rw [if_neg (by rintro ⟨h1, h2, h3⟩; omega)]
      rw [setPix_at]
      have hj : sx + j - sx = j := by omega
      rw [hj]
    · have hpix : setPix pix y' (sx + j) (Bool.xor (pix y' (sx + j)) (spriteBit sprite j)) y' x'
          = pix y' x' := setPix_ne _ _ _ _ _ _ (by rintro ⟨h1, h2⟩; exact hx1 h2)
      by_cases hin : sx + j ≤ x' ∧ x' < sx + j + (k + 1)
      · rw [if_pos ⟨rfl, hin.1, hin.2⟩]
        rw [if_pos ⟨rfl, by omega, by omega⟩]
        rw [hpix]
      · rw [if_neg (by rintro ⟨h1, h2, h3⟩; exact hin ⟨h2, by omega⟩)]
        rw [if_neg (by rintro ⟨h1, h2, h3⟩; exact hin ⟨by omega, by omega⟩)]
        rw [hpix]
  · rw [if_neg (by rintro ⟨h1, h2, h3⟩; exact hyy h1)]
    rw [if_neg (by rintro ⟨h1, h2, h3⟩; exact hyy h1)]
    exact (setPix_ne _ _ _ _ _ _ (by rintro ⟨h1, h2⟩; exact hyy h1)).symm

theorem anyCollide_congr (pix pix2 : Nat → Nat → Bool) (sx y sprite : Nat) :
    ∀ (k j : Nat), (∀ j', j ≤ j' → j' < j + k → pix2 y (sx + j') = pix y (sx + j')) →
    anyCollide pix2 sx y sprite k j = anyCollide pix sx y sprite k j := by
  intro k
  induction k with
  | zero => intro j h; rfl
  | succ k ih =>
    intro j h
    simp only [anyCollide]
    rw [h j le_rfl (by omega)]
    rw [ih (j + 1) (fun j' h1 h2 => h j' (by omega) (by omega))]


theorem drawCols_ok (sx sy sprite i : Nat) (hy : sy + i < 32) (hx : sx + 8 ≤ 64) :
    ∀ (k j : Nat), j + k ≤ 8 → ∀ s : CPU,
    drawCols sx sy sprite i k j s = .ok
      { s with
        display := ⟨blitRow s.display.pixels sx (sy + i) sprite j k⟩,
        registers := if anyCollide s.display.pixels sx (sy + i) sprite k j
          then setReg s.registers 15 1 else s.registers } := by
  intro k
  induction k with
  | zero =>
    intro j hjk s
    simp only [drawCols, anyCollide, blitRow_zero]
    rfl
  | succ k ih =>
    intro j hjk s
    have hxj : sx + j < 64 := by omega
    simp only [drawCols]
    rw [drawCell_ok sx sy sprite i j s hy hxj]
    dsimp only
    rw [ih (j + 1) (by omega) _]
    dsimp only
    have hdisp : blitRow
        (setPix s.display.pixels (sy + i) (sx + j)
          (Bool.xor (s.display.pixels (sy + i) (sx + j)) (spriteBit sprite j)))
        sx (sy + i) sprite (j + 1) k
        = blitRow s.display.pixels sx (sy + i) sprite j (k + 1) :=
      (blitRow_cons s.display.pixels sx (sy + i) sprite j k).symm
    rw [hdisp]
    have hcol : anyCollide
        (setPix s.display.pixels (sy + i) (sx + j)
          (Bool.xor (s.display.pixels (sy + i) (sx + j)) (spriteBit sprite j)))
        sx (sy + i) sprite k (j + 1)
        = anyCollide s.display.pixels sx (sy + i) sprite k (j + 1) := by
      apply anyCollide_congr
      intro j' h1 h2
      exact setPix_ne _ _ _ _ _ _ (by rintro ⟨e1, e2⟩; omega)
    rw [hcol]
    have hstep : anyCollide s.display.pixels sx (sy + i) sprite (k + 1) j
        = ((spriteBit sprite j && s.display.pixels (sy + i) (sx + j))
            || anyCollide s.display.pixels sx (sy + i) sprite k (j + 1)) := rfl
    rw [hstep]
    cases hb : spriteBit sprite j && s.display.pixels (sy + i) (sx + j)
    · simp
    · simp only [Bool.true_or, if_true]
      cases hc : anyCollide s.display.pixels sx (sy + i) sprite k (j + 1)
      · simp
      · simp [setReg_setReg]


theorem blitRows_zero (pix : Nat → Nat → Bool) (m : Nat → Nat) (sx sy ri i : Nat) :
    blitRows pix m sx sy ri i 0 = pix := by
  funext y' x'
  simp only [blitRows]
  rw [if_neg]
  rintro ⟨h1, h2, h3, h4⟩
  omega

theorem blitRows_cons (pix : Nat → Nat → Bool) (m : Nat → Nat) (sx sy ri i k : Nat) :
    blitRows pix m sx sy ri i (k + 1) =
      blitRows (blitRow pix sx (sy + i) (m (ri + i)) 0 8) m sx sy ri (i + 1) k := by
  funext y' x'
  simp only [blitRows, blitRow]
  by_cases hA : sy + i ≤ y' ∧ y' < sy + i + (k + 1) ∧ sx ≤ x' ∧ x' < sx + 8
  · rw [if_pos hA]
    by_cases hrow : y' = sy + i
    · rw [if_neg (by rintro ⟨h1, h2, h3, h4⟩; omega)]
      rw [if_pos ⟨hrow, by omega, by omega⟩]
      have e1 : y' - sy = i := by omega
      rw [e1]
    · rw [if_pos ⟨by omega, by omega, hA.2.2.1, hA.2.2.2⟩]
      rw [if_neg (by rintro ⟨h1, h2, h3⟩; exact hrow h1)]
  · rw [if_neg hA]
    rw [if_neg (by rintro ⟨h1, h2, h3, h4⟩; exact hA ⟨by omega, by omega, h3, h4⟩)]
    rw [if_neg (by rintro ⟨h1, h2, h3⟩; exact hA ⟨by omega, by omega, by omega, by omega⟩)]

theorem anyCollideRows_congr (pix pix2 : Nat → Nat → Bool) (m : Nat → Nat) (sx sy ri : Nat) :
    ∀ (k i : Nat), (∀ i' x', i ≤ i' → i' < i + k → pix2 (sy + i') x' = pix (sy + i') x') →
    anyCollideRows pix2 m sx sy ri k i = anyCollideRows pix m sx sy ri k i := by
  intro k
  induction k with
  | zero => intro i h; rfl
  | succ k ih =>
    intro i h
    simp only [anyCollideRows]
    rw [anyCollide_congr pix pix2 sx (sy + i) (m (ri + i)) 8 0
      (fun j' h1 h2 => h i (sx + j') le_rfl (by omega))]
    rw [ih (i + 1) (fun i' x' h1 h2 => h i' x' (by omega) (by omega))]

theorem drawRows_ok (sx sy : Nat) (m : Nat → Nat) (ri : Nat) (hx : sx + 8 ≤ 64) :
    ∀ (k i : Nat), sy + i + k ≤ 32 → ri + i + k ≤ 4096 → ∀ s : CPU,
    s.memory = m → s.register_I = ri →
    drawRows sx sy k i s = .ok
      { s with
        display := ⟨blitRows s.display.pixels m sx sy ri i k⟩,
        registers := if anyCollideRows s.display.pixels m sx sy ri k i
          then setReg s.registers 15 1 else s.registers } := by
  intro k
  induction k with
  | zero =>
    intro i h1 h2 s hm hI
    simp only [drawRows, anyCollideRows, blitRows_zero]
    rfl
  | succ k ih =>
    intro i h1 h2 s hm hI
    simp only [drawRows]
    rw [hI, hm]
    rw [if_pos (by omega : ri + i < 4096)]
    rw [drawCols_ok sx sy (m (ri + i)) i (by omega) hx 8 0 (by omega) s]
    dsimp only
    rw [ih (i + 1) (by omega) (by omega)
      { s with
        display := ⟨blitRow s.display.pixels sx (sy + i) (m (ri + i)) 0 8⟩,
        registers := if anyCollide s.display.pixels sx (sy + i) (m (ri + i)) 8 0
          then setReg s.registers 15 1 else s.registers } hm hI]
    dsimp only
    have hdisp : blitRows (blitRow s.display.pixels sx (sy + i) (m (ri + i)) 0 8)
        m sx sy ri (i + 1) k
        = blitRows s.display.pixels m sx sy ri i (k + 1) :=
      (blitRows_cons s.display.pixels m sx sy ri i k).symm
    rw [hdisp]
    have hcol : anyCollideRows (blitRow s.display.pixels sx (sy + i) (m (ri + i)) 0 8)
        m sx sy ri k (i + 1)
        = anyCollideRows s.display.pixels m sx sy ri k (i + 1) := by
      apply anyCollideRows_congr
      intro i' x' hi1 hi2
      simp only [blitRow]
      rw [if_neg]
      rintro ⟨h1, h2, h3⟩
      omega
    rw [hcol]
    have hstep : anyCollideRows s.display.pixels m sx sy ri (k + 1) i
        = (anyCollide s.display.pixels sx (sy + i) (m (ri + i)) 8 0
            || anyCollideRows s.display.pixels m sx sy ri k (i + 1)) := rfl
    rw [hstep]
    cases hb : anyCollide s.display.pixels sx (sy + i) (m (ri + i)) 8 0
    · simp [hI, hm]
    · simp only [Bool.true_or, if_true]
      cases hc : anyCollideRows s.display.pixels m sx sy ri k (i + 1)
      · simp [hI, hm]
      · simp [setReg_setReg, hI, hm]

theorem draw_ok (ix iy n : Nat) (s : CPU)
    (hx : s.registers ix % 64 + 8 ≤ 64) (hy : s.registers iy % 32 + n ≤ 32)
    (hm : s.register_I + n ≤ 4096) :
    draw ix iy n s = .ok
      { s with
        display := ⟨blitRows s.display.pixels s.memory (s.registers ix % 64)
          (s.registers iy % 32) s.register_I 0 n⟩,
        registers := setReg s.registers 15
          (if anyCollideRows s.display.pixels s.memory (s.registers ix % 64)
             (s.registers iy % 32) s.register_I n 0 then 1 else 0) } := by
  simp only [draw]
  rw [drawRows_ok (s.registers ix % 64) (s.registers iy % 32) s.memory s.register_I
    (by omega) n 0 (by omega) (by omega) { s with registers := setReg s.registers 15 0 } rfl rfl]
  dsimp only
  cases hc : anyCollideRows s.display.pixels s.memory (s.registers ix % 64)
      (s.registers iy % 32) s.register_I n 0
  · simp
  · simp [setReg_setReg]


theorem anyCollide_eq_true_iff (pix : Nat → Nat → Bool) (sx y sprite : Nat) :
    ∀ (k j : Nat), anyCollide pix sx y sprite k j = true ↔
      ∃ j', j ≤ j' ∧ j' < j + k ∧ spriteBit sprite j' = true ∧ pix y (sx + j') = true := by
  intro k
  induction k with
  | zero =>
    intro j
    simp only [anyCollide]
    constructor
    · intro h; exact absurd h (by decide)
    · rintro ⟨j', h1, h2, hb, hp⟩; omega
  | succ k ih =>
    intro j
    simp only [anyCollide, Bool.or_eq_true, Bool.and_eq_true, ih (j + 1)]
    constructor
    · rintro (⟨hb, hp⟩ | ⟨j', h1, h2, hb, hp⟩)
      · exact ⟨j, le_rfl, by omega, hb, hp⟩
      · exact ⟨j', by omega, by omega, hb, hp⟩
    · rintro ⟨j', h1, h2, hb, hp⟩
      by_cases hj : j' = j
      · subst hj; exact Or.inl ⟨hb, hp⟩
      · exact Or.inr ⟨j', by omega, by omega, hb, hp⟩

theorem anyCollideRows_eq_true_iff (pix : Nat → Nat → Bool) (m : Nat → Nat) (sx sy ri : Nat) :
    ∀ (k i : Nat), anyCollideRows pix m sx sy ri k i = true ↔
      ∃ i' j', i ≤ i' ∧ i' < i + k ∧ j' < 8 ∧
        spriteBit (m (ri + i')) j' = true ∧ pix (sy + i') (sx + j') = true := by
  intro k
  induction k with
  | zero =>
    intro i
    simp only [anyCollideRows]
    constructor
    · intro h; exact absurd h (by decide)
    · rintro ⟨i', j', h1, h2, h3, hb, hp⟩; omega
  | succ k ih =>
    intro i
    simp only [anyCollideRows, Bool.or_eq_true, ih (i + 1),
      anyCollide_eq_true_iff pix sx (sy + i) (m (ri + i)) 8 0]
    constructor
    · rintro (⟨j', h1, h2, hb, hp⟩ | ⟨i', j', h1, h2, h3, hb, hp⟩)
      · exact ⟨i, j', le_rfl, by omega, by omega, hb, hp⟩
      · exact ⟨i', j', by omega, by omega, h3, hb, hp⟩
    · rintro ⟨i', j', h1, h2, h3, hb, hp⟩
      by_cases hi : i' = i
      · subst hi; exact Or.inl ⟨j', by omega, by omega, hb, hp⟩
      · exact Or.inr ⟨i', j', by omega, by omega, h3, hb, hp⟩

theorem blitRows_involutive (pix : Nat → Nat → Bool) (m : Nat → Nat) (sx sy ri n : Nat) :
    blitRows (blitRows pix m sx sy ri 0 n) m sx sy ri 0 n = pix := by
  funext y' x'
  simp only [blitRows]
  by_cases h : sy + 0 ≤ y' ∧ y' < sy + 0 + n ∧ sx ≤ x' ∧ x' < sx + 8
  · rw [if_pos h, if_pos h]
    cases pix y' x' <;> cases spriteBit (m (ri + (y' - sy))) (x' - sx) <;> rfl
  · rw [if_neg h, if_neg h]

theorem blit_second_collision_iff (pix : Nat → Nat → Bool) (m : Nat → Nat) (sx sy ri n : Nat) :
    anyCollideRows (blitRows pix m sx sy ri 0 n) m sx sy ri n 0 = true ↔
      ∃ y x, pix y x = false ∧ blitRows pix m sx sy ri 0 n y x = true := by
  rw [anyCollideRows_eq_true_iff]
  constructor
  · rintro ⟨i', j', h0, hi, hj, hb, hp⟩
    refine ⟨sy + i', sx + j', ?_, hp⟩
    have hin : sy + 0 ≤ sy + i' ∧ sy + i' < sy + 0 + n ∧ sx ≤ sx + j' ∧ sx + j' < sx + 8 := by
      omega
    have e1 : blitRows pix m sx sy ri 0 n (sy + i') (sx + j')
        = Bool.xor (pix (sy + i') (sx + j'))
            (spriteBit (m (ri + (sy + i' - sy))) (sx + j' - sx)) := by
      simp only [blitRows]; rw [if_pos hin]
    have e2 : sy + i' - sy = i' := by omega
    have e3 : sx + j' - sx = j' := by omega
    rw [e1, e2, e3, hb] at hp
    cases hcell : pix (sy + i') (sx + j')
    · rfl
    · rw [hcell] at hp; exact absurd hp (by decide)
  · rintro ⟨y, x, hoff, hon⟩
    by_cases hin : sy + 0 ≤ y ∧ y < sy + 0 + n ∧ sx ≤ x ∧ x < sx + 8
    · have e1 : blitRows pix m sx sy ri 0 n y x
          = Bool.xor (pix y x) (spriteBit (m (ri + (y - sy))) (x - sx)) := by
        simp only [blitRows]; rw [if_pos hin]
      have hon2 := hon
      rw [e1, hoff] at hon2
      have hbit : spriteBit (m (ri + (y - sy))) (x - sx) = true := by
        cases hb2 : spriteBit (m (ri + (y - sy))) (x - sx)
        · rw [hb2] at hon2; exact absurd hon2 (by decide)
        · rfl
      refine ⟨y - sy, x - sx, by omega, by omega, by omega, hbit, ?_⟩
      have e4 : sy + (y - sy) = y := by omega
      have e5 : sx + (x - sx) = x := by omega
      rw [e4, e5]
      exact hon
    · have e1 : blitRows pix m sx sy ri 0 n y x = pix y x := by
        simp only [blitRows]; rw [if_neg hin]
      rw [e1, hoff] at hon
      exact absurd hon (by decide)


/-- C6: drawing the same sprite twice at the same position (operand registers
distinct from 0xF, so both draws read the same start position; the whole
8-column window and all `n` rows inside the 64×32 grid; the `n`-byte sprite
inside memory) restores every pixel to its pre-draw state, and the second draw
reports a collision (register 0xF = 1) exactly when the first draw turned some
pixel on. -/
theorem draw_twice_restores (ix iy n : Nat) (s s1 : CPU)
    (hix : ix ≠ 15) (hiy : iy ≠ 15)
    (hx : s.registers ix % 64 + 8 ≤ 64) (hy : s.registers iy % 32 + n ≤ 32)
    (hm : s.register_I + n ≤ 4096)
    (h1 : draw ix iy n s = .ok s1) :
    ∃ s2, draw ix iy n s1 = .ok s2 ∧
      s2.display.pixels = s.display.pixels ∧
      (s2.registers 15 = 1 ↔
        ∃ y x, s.display.pixels y x = false ∧ s1.display.pixels y x = true) := by
  rw [draw_ok ix iy n s hx hy hm] at h1
  injection h1 with h1
  subst h1
  refine ⟨_, draw_ok ix iy n _ ?hx1 ?hy1 ?hm1, ?pix, ?flag⟩
  case hx1 =>
    dsimp only
    rw [setReg_ne s.registers 15 _ ix hix]
    exact hx
  case hy1 =>
    dsimp only
    rw [setReg_ne s.registers 15 _ iy hiy]
    exact hy
  case hm1 =>
    dsimp only
    exact hm
  case pix =>
    dsimp only
    rw [setReg_ne s.registers 15 _ ix hix, setReg_ne s.registers 15 _ iy hiy]
    exact blitRows_involutive s.display.pixels s.memory (s.registers ix % 64)
      (s.registers iy % 32) s.register_I n
  case flag =>
    dsimp only
    rw [setReg_ne s.registers 15 _ ix hix, setReg_ne s.registers 15 _ iy hiy, setReg_self]
    rw [← blit_second_collision_iff s.display.pixels s.memory (s.registers ix % 64)
      (s.registers iy % 32) s.register_I n]
    cases anyCollideRows
        (blitRows s.display.pixels s.memory (s.registers ix % 64) (s.registers iy % 32)
          s.register_I 0 n)
        s.memory (s.registers ix % 64) (s.registers iy % 32) s.register_I n 0 <;> simp


/-- C6 witness: the one-row sprite `0x80` drawn twice at (0, 0) on a blank
display. -/
theorem draw_twice_restores_witness :
    ∃ s2, draw 0 1 1 drawOnceCPU = .ok s2 ∧
      s2.display.pixels = drawTestCPU.display.pixels ∧
      (s2.registers 15 = 1 ↔
        ∃ y x, drawTestCPU.display.pixels y x = false ∧
          drawOnceCPU.display.pixels y x = true) :=
  draw_twice_restores 0 1 1 drawTestCPU drawOnceCPU (by decide) (by decide) (by decide)
    (by decide) (by decide) rfl

end Chip8
